import Mathlib

/-!
Verification of the policy-detection core of stackrox:
the boolean-policy node-event matcher, the `detection` policy-set registry
(`src/unnamed/part_001`, `src/pkg/detection/policy_set.go`), the compile
entry points (`src/unnamed/part_002`), and the deployment-risk reprocessing
pipeline (`Run` / `acquireRiskSemaphore` / `releaseRiskSemaphore`).

Shallow embedding conventions: Go `error` values become `Option String`
(`none` = nil); effectful callbacks are state-threaded; the reprocessing
pipeline is embedded as a function that also emits a trace of the external
actions it performs (semaphore acquire/release, datastore fetch, risk
reprocessing).
-/

/-- The file-access operation enum (`storage.FileAccess_Operation`); the six
values exercised by the node-policies test suite. -/
inductive FileOperation where
  | OPEN
  | UNLINK
  | CREATE
  | RENAME
  | OWNERSHIP_CHANGE
  | PERMISSION_CHANGE
  deriving DecidableEq, Repr

/-- Go's `op.String()` for the operation enum. -/
def FileOperation.str : FileOperation → String
  | .OPEN => "OPEN"
  | .UNLINK => "UNLINK"
  | .CREATE => "CREATE"
  | .RENAME => "RENAME"
  | .OWNERSHIP_CHANGE => "OWNERSHIP_CHANGE"
  | .PERMISSION_CHANGE => "PERMISSION_CHANGE"

/-- Parse a string-encoded operation value back into the enum. -/
def FileOperation.ofString (s : String) : Option FileOperation :=
  if s = "OPEN" then some .OPEN
  else if s = "UNLINK" then some .UNLINK
  else if s = "CREATE" then some .CREATE
  else if s = "RENAME" then some .RENAME
  else if s = "OWNERSHIP_CHANGE" then some .OWNERSHIP_CHANGE
  else if s = "PERMISSION_CHANGE" then some .PERMISSION_CHANGE
  else none

/-- A node file-access event (`storage.FileAccess`): the accessed file's
actual path, its effective path, and the operation performed. -/
structure FileAccess where
  actualPath : String
  effectivePath : String
  operation : FileOperation
  deriving DecidableEq, Repr

/-- `storage.PolicyValue`: one string-encoded comparison value. -/
structure PolicyValue where
  value : String
  deriving DecidableEq, Repr

/-- `storage.PolicyGroup`: a field name, a list of values, a negate flag. -/
structure PolicyGroup where
  fieldName : String
  values : List PolicyValue
  negate : Bool
  deriving DecidableEq, Repr

/-- `storage.PolicySection`: an ordered list of groups, AND-combined. -/
structure PolicySection where
  sectionName : String
  policyGroups : List PolicyGroup
  deriving DecidableEq, Repr

/-- `storage.Policy`: the declarative policy document (the fields the
detection core reads). -/
structure Policy where
  id : String
  name : String
  policySections : List PolicySection
  notifiers : List String
  deriving DecidableEq, Repr

instance : Inhabited Policy := ⟨⟨"", "", [], []⟩⟩

/-- Field-name vocabulary used by node file-access policies
(`fieldnames.ActualPath`). -/
def actualPathFieldName : String := "Actual Path"

/-- `fieldnames.EffectivePath`. -/
def effectivePathFieldName : String := "Effective Path"

/-- `fieldnames.FileOperation`. -/
def fileOperationFieldName : String := "File Operation"

/-- Modelled from the spec: the compiled form of a policy group produced by
the boolean-policy compiler (the compiler/evaluator sources are not under
src/, only their test suite). A compiled group holds the field predicate,
the negate flag, and — when the group is an operation restriction — the set
of permitted operation values. -/
structure CompiledGroup where
  fieldPred : FileAccess → Bool
  negate : Bool
  operations : Option (List FileOperation)

/-- Modelled from the spec: group evaluation. With no operation restriction
the group predicate is `fieldMatch XOR negate`; with an operation
restriction it is `fieldMatch AND (negate ? operation NOT IN set :
operation IN set)` — negation applies to the operation-set test, not to the
field match. -/
def groupMatches (g : CompiledGroup) (e : FileAccess) : Bool :=
  match g.operations with
  | none => xor (g.fieldPred e) g.negate
  | some ops =>
      g.fieldPred e &&
        (if g.negate then !(ops.contains e.operation) else ops.contains e.operation)

/-- A compiled section: its groups, AND-combined. -/
def sectionMatches (gs : List CompiledGroup) (e : FileAccess) : Bool :=
  gs.all (fun g => groupMatches g e)

/-- Modelled from the spec: compilation of one policy group. Path fields
compile to an exact-membership predicate over the group's values; a
`File Operation` group compiles to an operation restriction (its field
predicate is a wildcard: it matches the field's mere presence). An unknown
field name or a malformed operation value is a compile-time error. -/
def compileGroup (g : PolicyGroup) : Except String CompiledGroup :=
  if g.fieldName = actualPathFieldName then
    .ok ⟨fun e => g.values.contains ⟨e.actualPath⟩, g.negate, none⟩
  else if g.fieldName = effectivePathFieldName then
    .ok ⟨fun e => g.values.contains ⟨e.effectivePath⟩, g.negate, none⟩
  else if g.fieldName = fileOperationFieldName then
    match g.values.mapM (fun v => FileOperation.ofString v.value) with
    | some ops => .ok ⟨fun _ => true, g.negate, some ops⟩
    | none => .error ("malformed operation value in group: " ++ g.fieldName)
  else
    .error ("unknown field name: " ++ g.fieldName)

/-- Compile every group of a section. -/
def compileSection (s : PolicySection) : Except String (List CompiledGroup) :=
  s.policyGroups.mapM compileGroup

/-- Compile every section of a policy. -/
def compileSections (p : Policy) : Except String (List (List CompiledGroup)) :=
  p.policySections.mapM compileSection

/-- The compiled policy: owns its policy document plus the compiled
predicate tree (sections OR'd, groups inside a section AND'd). -/
structure CompiledPolicy where
  policy : Policy
  sections : List (List CompiledGroup)

/-- Modelled from the spec: `newCompiledPolicy` — compile the predicate tree
and bundle it with the (already cloned) policy. -/
def newCompiledPolicy (p : Policy) : Except String CompiledPolicy :=
  (compileSections p).map (fun secs => ⟨p, secs⟩)

/-- `CompilePolicyWithProviders` (src/unnamed/part_002): clone the input
policy and compile it. In this value-semantics embedding the clone is the
value itself; the pointer-level clone behaviour is verified separately on
the heap model below. -/
def CompilePolicyWithProviders (p : Policy) : Except String CompiledPolicy :=
  newCompiledPolicy p

/-- An alert violation (`storage.Alert_Violation`) of kind FILE_ACCESS with
its file-access payload. -/
structure AlertViolation where
  isFileAccessKind : Bool
  actualPath : String
  effectivePath : String
  operation : FileOperation
  deriving DecidableEq, Repr

/-- Modelled from the spec: `BuildNodeEventMatcher` — compile a file-access
policy into its matcher (the compiled section list). -/
def BuildNodeEventMatcher (p : Policy) : Except String CompiledPolicy :=
  newCompiledPolicy p

/-- Modelled from the spec: `MatchNodeWithFileAccess` — if any compiled
section matches the event, emit exactly one FILE_ACCESS violation carrying
the event's own paths and operation; otherwise emit none. -/
def MatchNodeWithFileAccess (cp : CompiledPolicy) (e : FileAccess) :
    List AlertViolation :=
  if cp.sections.any (fun s => sectionMatches s e) then
    [⟨true, e.actualPath, e.effectivePath, e.operation⟩]
  else
    []

/-! ## The PolicySet registry (src/unnamed/part_001, pkg/detection/policy_set.go)

`maputil.FastRMap` (not under src/) is modelled from the spec as an
association list with at most one entry per key: `Get` is lookup, `Set`
inserts-or-replaces, `Delete` removes, `GetMap` is a point-in-time snapshot
of the entries. Go `error` is `Option String`; the aggregate error built by
`errorhelpers.NewErrorList` (not under src/) is modelled from the spec as
the list of collected error messages, converted to `none` when empty. -/

/-- The registry state: `setImpl.policyIDToCompiled`. -/
structure SetImpl where
  policyIDToCompiled : List (String × CompiledPolicy)

/-- `FastRMap.Get`: lookup by policy ID. -/
def rmapGet (m : List (String × CompiledPolicy)) (k : String) :
    Option CompiledPolicy :=
  (m.find? (fun kv => kv.1 = k)).map (·.2)

/-- `FastRMap.Set`: insert or replace the entry for a key. -/
def rmapSet (m : List (String × CompiledPolicy)) (k : String)
    (v : CompiledPolicy) : List (String × CompiledPolicy) :=
  (k, v) :: m.filter (fun kv => kv.1 ≠ k)

/-- `FastRMap.Delete`: remove the entry for a key. -/
def rmapDelete (m : List (String × CompiledPolicy)) (k : String) :
    List (String × CompiledPolicy) :=
  m.filter (fun kv => kv.1 ≠ k)

/-- `errorhelpers`: convert a collected error list to a single aggregate Go
error — nil when no error was collected. -/
def errorListToError (errs : List String) : Option (List String) :=
  if errs.isEmpty then none else some errs

/-- `setImpl.ForEach`: snapshot the map, invoke `f` on every entry,
collect each error into the error list, return the aggregate. The callback
is state-threaded to embed its Go side effects. -/
def ForEach {σ : Type} (s : SetImpl) (f : σ → CompiledPolicy → σ × Option String)
    (st : σ) : σ × Option (List String) :=
  let r := s.policyIDToCompiled.foldl
    (fun (acc : σ × List String) kv =>
      match f acc.1 kv.2 with
      | (st', none) => (st', acc.2)
      | (st', some e) => (st', acc.2 ++ [e]))
    (st, [])
  (r.1, errorListToError r.2)

/-- `setImpl.ForOne`: invoke `f` on the entry for the ID, or fail with a
not-found error. -/
def ForOne {σ : Type} (s : SetImpl) (pID : String)
    (f : σ → CompiledPolicy → σ × Option String) (st : σ) : σ × Option String :=
  match rmapGet s.policyIDToCompiled pID with
  | some compiled => f st compiled
  | none => (st, some ("policy with ID not found in set: " ++ pID))

/-- `setImpl.UpsertPolicy`: compile the policy; on error return it without
touching the map; on success install the compiled policy under its ID. -/
def UpsertPolicy (s : SetImpl) (policy : Policy) : SetImpl × Option String :=
  match CompilePolicyWithProviders policy with
  | .error err => (s, some err)
  | .ok compiled =>
      (⟨rmapSet s.policyIDToCompiled compiled.policy.id compiled⟩, none)

/-- `setImpl.RemovePolicy`: delete the entry for the ID. -/
def RemovePolicy (s : SetImpl) (policyID : String) : SetImpl :=
  ⟨rmapDelete s.policyIDToCompiled policyID⟩

/-- `setImpl.GetCompiledPolicies`: the current snapshot. -/
def GetCompiledPolicies (s : SetImpl) : List (String × CompiledPolicy) :=
  s.policyIDToCompiled

/-- `setImpl.Exists`: membership by policy ID. -/
def ExistsPolicy (s : SetImpl) (id : String) : Bool :=
  (rmapGet s.policyIDToCompiled id).isSome

/-! ## Heap model of the compile entry points (src/unnamed/part_002)

`CompilePolicy` and `CompilePolicyWithProviders` call `policy.CloneVT()`
and hand only the clone to `newCompiledPolicy`. To state pointer
non-retention and mutation independence, policies live in an explicit heap
of cells addressed by `Nat`; `CloneVT` allocates a fresh cell holding a
copy of the pointee. -/

/-- The policy heap: cell `i` holds the policy object at address `i`. -/
structure PolicyHeap where
  cells : List Policy

/-- Read the policy at an address. -/
def heapGet (h : PolicyHeap) (a : Nat) : Option Policy :=
  h.cells[a]?

/-- Mutate the policy object at an address in place. -/
def heapSet (h : PolicyHeap) (a : Nat) (p : Policy) : PolicyHeap :=
  ⟨h.cells.set a p⟩

/-- Allocate a fresh cell holding `p`; returns the new heap and address. -/
def heapAlloc (h : PolicyHeap) (p : Policy) : PolicyHeap × Nat :=
  (⟨h.cells ++ [p]⟩, h.cells.length)

/-- `policy.CloneVT()`: allocate a fresh cell with a deep copy of the
pointee. -/
def cloneVT (h : PolicyHeap) (a : Nat) : PolicyHeap × Nat :=
  heapAlloc h ((heapGet h a).getD default)

/-- The compiled policy in the heap model: owns the address of its cloned
policy plus the compiled predicate tree. -/
structure CompiledPolicyH where
  policyAddr : Nat
  sections : List (List CompiledGroup)

/-- `CompilePolicy` on the heap model: clone the caller's policy, then
compile the clone. -/
def CompilePolicyHeap (h : PolicyHeap) (a : Nat) :
    PolicyHeap × Except String CompiledPolicyH :=
  let hc := cloneVT h a
  (hc.1, (compileSections ((heapGet hc.1 hc.2).getD default)).map
    (fun secs => ⟨hc.2, secs⟩))

/-- `CompilePolicyWithProviders` on the heap model: identical clone-then-
compile behaviour (providers only parameterise scope resolution). -/
def CompilePolicyWithProvidersHeap (h : PolicyHeap) (a : Nat) :
    PolicyHeap × Except String CompiledPolicyH :=
  CompilePolicyHeap h a

/-! ## The deployment-risk reprocessing pipeline
(`Run`, `acquireRiskSemaphore`, `releaseRiskSemaphore` in the reprocessing
pipeline source)

The semaphore, the deployment datastore and the risk manager are external
collaborators; their outcomes are inputs to the embedded `Run`, which also
emits a trace of the external actions it performs, in order. The metric
gauges/counters are explicit state. -/

/-- Outcome of `riskSemaphore.Acquire(acquireCtx, 1)`: success, failure with
the parent context still alive (the wait timeout fired), or failure with
the parent context cancelled. -/
inductive AcquireOutcome where
  | ok
  | timedOut
  | cancelled
  deriving DecidableEq, Repr

/-- Outcome of `deployments.GetDeployment`: a datastore error, a clean
"does not exist" answer (nil error, exists=false), or the deployment. -/
inductive FetchOutcome where
  | fetchErr (e : String)
  | absent
  | found (deploymentId : String)
  deriving DecidableEq, Repr

/-- The prometheus metrics touched by the pipeline: semaphore queue gauge,
holding gauge, and the cumulative timeout counter. -/
structure PipelineMetrics where
  queueSize : Int
  holdingSize : Int
  timeouts : Nat
  deriving DecidableEq, Repr

/-- The externally visible actions `Run` performs, in order. -/
inductive PipelineAction where
  | acquireSlot
  | releaseSlot
  | getDeployment
  | populateIDV2
  | reprocessRisk
  deriving DecidableEq, Repr

/-- `acquireRiskSemaphore`: bump the queue gauge for the duration of the
wait (net zero), then on success bump the holding gauge and return nil; on
failure return the acquire error — bumping the timeout counter only when
the parent context is still alive (a wait timeout), not when the parent was
cancelled. -/
def acquireRiskSemaphore (m : PipelineMetrics) (o : AcquireOutcome) :
    PipelineMetrics × Option String × List PipelineAction :=
  match o with
  | .ok =>
      ({ m with holdingSize := m.holdingSize + 1 }, none, [.acquireSlot])
  | .timedOut =>
      ({ m with timeouts := m.timeouts + 1 },
        some "context deadline exceeded", [])
  | .cancelled =>
      (m, some "context canceled", [])

/-- `releaseRiskSemaphore`: release the slot and drop the holding gauge. -/
def releaseRiskSemaphore (m : PipelineMetrics) :
    PipelineMetrics × List PipelineAction :=
  ({ m with holdingSize := m.holdingSize - 1 }, [.releaseSlot])

/-- The result of one `Run` call: final metrics, the returned Go error, and
the ordered trace of external actions performed. -/
structure RunResult where
  metrics : PipelineMetrics
  err : Option String
  trace : List PipelineAction
  deriving DecidableEq, Repr

/-- `Run`: acquire the risk semaphore (returning its error when acquisition
fails, before any datastore access); once admitted, release is deferred, so
it happens on every exit path: fetch the deployment, return the fetch error
(nil when the deployment simply does not exist, skipping reprocessing), or
optionally populate IDV2s and reprocess the deployment's risk. -/
def Run (m : PipelineMetrics) (acq : AcquireOutcome) (fetch : FetchOutcome)
    (flattenImageData : Bool) : RunResult :=
  match acquireRiskSemaphore m acq with
  | (m₁, some e, tr) => ⟨m₁, some e, tr⟩
  | (m₁, none, tr) =>
      let body : Option String × List PipelineAction :=
        match fetch with
        | .fetchErr e => (some e, [.getDeployment])
        | .absent => (none, [.getDeployment])
        | .found _ =>
            (none, [.getDeployment] ++
              (if flattenImageData then [.populateIDV2] else []) ++
              [.reprocessRisk])
      let rel := releaseRiskSemaphore m₁
      ⟨rel.1, body.1, tr ++ body.2 ++ rel.2⟩

/-! ## Model validation against the node-policies test table -/

/-- Test helper `getNodeFileAccessPolicyForPathType`: a one-section,
one-group policy listing the given paths under the given field. -/
def nodeFileAccessPolicyForPathType (fieldname : String) (paths : List String) :
    Policy :=
  ⟨"test-policy-id", "Sensitive File Access on Node",
    [⟨"section 1", [⟨fieldname, paths.map (fun p => ⟨p⟩), false⟩]⟩], []⟩

/-- Test helper `getNodeFileAccessPolicyWithOperations`: the path policy
with a `File Operation` group appended to its section. -/
def nodeFileAccessPolicyWithOperations (pathField : String)
    (operations : List FileOperation) (negate : Bool) (paths : List String) :
    Policy :=
  let base := nodeFileAccessPolicyForPathType pathField paths
  ⟨base.id, base.name,
    [⟨"section 1",
      (base.policySections.headD ⟨"", []⟩).policyGroups ++
        [⟨fileOperationFieldName, operations.map (fun o => ⟨o.str⟩), negate⟩]⟩],
    []⟩

/-- Test helper `getNodeFileAccessEvent` for the actual-path field. -/
def nodeFileAccessEventActual (path : String) (op : FileOperation) : FileAccess :=
  ⟨path, "", op⟩

/-- Number of alert violations the compiled policy emits for the event
(`none` when the policy does not compile). -/
def violationCount (p : Policy) (e : FileAccess) : Option Nat :=
  match BuildNodeEventMatcher p with
  | .error _ => none
  | .ok cp => some (MatchNodeWithFileAccess cp e).length

example :
    ([FileOperation.OPEN, .UNLINK, .CREATE, .OWNERSHIP_CHANGE,
      .PERMISSION_CHANGE, .RENAME].map (fun op =>
        violationCount
          (nodeFileAccessPolicyWithOperations actualPathFieldName
            [.OPEN] true ["/etc/passwd"])
          (nodeFileAccessEventActual "/etc/passwd" op)))
      = [some 0, some 1, some 1, some 1, some 1, some 1] := by rfl

example :
    ([FileOperation.OPEN, .CREATE, .OWNERSHIP_CHANGE, .PERMISSION_CHANGE,
      .UNLINK, .RENAME].map (fun op =>
        violationCount
          (nodeFileAccessPolicyWithOperations actualPathFieldName
            [.OPEN, .CREATE] true ["/etc/passwd"])
          (nodeFileAccessEventActual "/etc/passwd" op)))
      = [some 0, some 0, some 1, some 1, some 1, some 1] := by rfl

example :
    ([FileOperation.OPEN, .CREATE, .RENAME].map (fun op =>
        violationCount
          (nodeFileAccessPolicyWithOperations actualPathFieldName
            [.OPEN, .CREATE] false ["/etc/passwd"])
          (nodeFileAccessEventActual "/etc/passwd" op)))
      = [some 1, some 1, some 0] := by rfl

/-- C1: for a compiled group with an operation restriction whose field
predicate matches the event, negate=true makes the group match exactly when
the event's operation is NOT in the listed set (the negation applies to the
operation filter, not to the field match), and negate=false makes it match
exactly when the operation IS in the set. -/
theorem operation_restricted_negation_semantics
    (g : CompiledGroup) (e : FileAccess) (ops : List FileOperation)
    (hops : g.operations = some ops) (hfield : g.fieldPred e = true) :
    (g.negate = true → (groupMatches g e = true ↔ e.operation ∉ ops)) ∧
    (g.negate = false → (groupMatches g e = true ↔ e.operation ∈ ops)) := by
  unfold groupMatches
  rw [hops]
  constructor <;> intro hn <;> rw [hn, hfield] <;> simp

/-- Witness for C1 at the test-table instance: operations {OPEN},
negate=true, field predicate matching; the OPEN event does not match while
UNLINK, CREATE, RENAME, OWNERSHIP_CHANGE and PERMISSION_CHANGE all do. -/
theorem operation_restricted_negation_semantics_witness :
    groupMatches ⟨fun _ => true, true, some [.OPEN]⟩
      ⟨"/etc/passwd", "", .UNLINK⟩ = true ∧
    ([FileOperation.CREATE, .RENAME, .OWNERSHIP_CHANGE,
      .PERMISSION_CHANGE].all (fun op =>
        groupMatches ⟨fun _ => true, true, some [.OPEN]⟩
          ⟨"/etc/passwd", "", op⟩)) = true ∧
    groupMatches ⟨fun _ => true, true, some [.OPEN]⟩
      ⟨"/etc/passwd", "", .OPEN⟩ = false := by
  have h := operation_restricted_negation_semantics
    ⟨fun _ => true, true, some [.OPEN]⟩ ⟨"/etc/passwd", "", .UNLINK⟩
    [.OPEN] rfl rfl
  exact ⟨(h.1 rfl).mpr (by decide), by decide, by decide⟩

/-- C3: for a compiled file-access policy, an event matched by some section
yields exactly one FILE_ACCESS violation whose payload is the event's own
actual path, effective path and operation verbatim; an event matched by no
section yields zero violations. -/
theorem file_access_single_violation_per_event
    (p : Policy) (cp : CompiledPolicy) (e : FileAccess)
    (_hb : BuildNodeEventMatcher p = .ok cp) :
    ((∃ s, s ∈ cp.sections ∧ sectionMatches s e = true) →
      MatchNodeWithFileAccess cp e =
        [⟨true, e.actualPath, e.effectivePath, e.operation⟩]) ∧
    ((∀ s, s ∈ cp.sections → sectionMatches s e = false) →
      MatchNodeWithFileAccess cp e = []) := by
  clear _hb
  constructor
  · rintro ⟨s, hs, hm⟩
    unfold MatchNodeWithFileAccess
    rw [if_pos]
    exact List.any_eq_true.mpr ⟨s, hs, hm⟩
  · intro hall
    unfold MatchNodeWithFileAccess
    rw [if_neg]
    intro hany
    obtain ⟨s, hs, hm⟩ := List.any_eq_true.mp hany
    rw [hall s hs] at hm
    exact Bool.false_ne_true hm

/-- Scenario A policy: one section with an actual-path group for
"/etc/passwd" and a File Operation group for {OPEN}. -/
def scenarioAPolicy : Policy :=
  nodeFileAccessPolicyWithOperations actualPathFieldName
    [.OPEN] false ["/etc/passwd"]

/-- The compiled matcher for the Scenario A policy. -/
def scenarioACompiled : CompiledPolicy :=
  (BuildNodeEventMatcher scenarioAPolicy).toOption.getD ⟨default, []⟩

/-- Witness for C3 at Scenarios A and B: the OPEN event at "/etc/passwd"
yields exactly the one violation carrying the event's fields; the UNLINK
event yields none. -/
theorem file_access_single_violation_per_event_witness :
    BuildNodeEventMatcher scenarioAPolicy = .ok scenarioACompiled ∧
    MatchNodeWithFileAccess scenarioACompiled
      (nodeFileAccessEventActual "/etc/passwd" .OPEN) =
      [⟨true, "/etc/passwd", "", .OPEN⟩] ∧
    MatchNodeWithFileAccess scenarioACompiled
      (nodeFileAccessEventActual "/etc/passwd" .UNLINK) = [] := by
  have hb : BuildNodeEventMatcher scenarioAPolicy = .ok scenarioACompiled := rfl
  have hA := file_access_single_violation_per_event scenarioAPolicy
    scenarioACompiled (nodeFileAccessEventActual "/etc/passwd" .OPEN) hb
  have hB := file_access_single_violation_per_event scenarioAPolicy
    scenarioACompiled (nodeFileAccessEventActual "/etc/passwd" .UNLINK) hb
  refine ⟨hb, hA.1 ?_, hB.2 ?_⟩
  · exact List.any_eq_true.mp (by rfl)
  · intro s hs
    have hall : scenarioACompiled.sections.all
        (fun s => !sectionMatches s (nodeFileAccessEventActual "/etc/passwd" .UNLINK)) = true := by rfl
    have := List.all_eq_true.mp hall s hs
    simp only [Bool.not_eq_true'] at this
    exact this

/-- C2: when compilation fails, UpsertPolicy returns that compilation error
and leaves the registry mapping exactly as it was: Exists, ForOne, ForEach
and GetCompiledPolicies all observe the prior state, and a prior valid
entry under the same ID is still handed to ForOne callbacks unchanged. -/
theorem upsert_failure_leaves_registry_unchanged
    (s : SetImpl) (p : Policy) (err : String)
    (hc : CompilePolicyWithProviders p = .error err) :
    UpsertPolicy s p = (s, some err) ∧
    (∀ id, ExistsPolicy (UpsertPolicy s p).1 id = ExistsPolicy s id) ∧
    (∀ {σ : Type} (f : σ → CompiledPolicy → σ × Option String) (st : σ)
      (id : String),
      ForOne (UpsertPolicy s p).1 id f st = ForOne s id f st) ∧
    (∀ {σ : Type} (f : σ → CompiledPolicy → σ × Option String) (st : σ),
      ForEach (UpsertPolicy s p).1 f st = ForEach s f st) ∧
    GetCompiledPolicies (UpsertPolicy s p).1 = GetCompiledPolicies s ∧
    (∀ {σ : Type} (f : σ → CompiledPolicy → σ × Option String) (st : σ)
      (c : CompiledPolicy),
      rmapGet s.policyIDToCompiled p.id = some c →
        ForOne (UpsertPolicy s p).1 p.id f st = f st c) := by
  have h : UpsertPolicy s p = (s, some err) := by
    unfold UpsertPolicy
    rw [hc]
  refine ⟨h, ?_, ?_, ?_, ?_, ?_⟩
  · intro id; rw [h]
  · intro σ f st id; rw [h]
  · intro σ f st; rw [h]
  · rw [h]
  · intro σ f st c hget
    rw [h]
    unfold ForOne
    rw [hget]

/-- A prior valid compiled policy registered under ID "px". -/
def priorCompiled : CompiledPolicy := ⟨⟨"px", "prior policy", [], []⟩, []⟩

/-- A registry holding only the prior entry for "px". -/
def priorSet : SetImpl := ⟨[("px", priorCompiled)]⟩

/-- A policy for ID "px" whose compilation fails (unknown field name). -/
def badPolicy : Policy :=
  ⟨"px", "broken policy", [⟨"section 1", [⟨"Bogus Field", [], false⟩]⟩], []⟩

/-- Witness for C2: upserting the failing policy over the prior "px" entry
returns the compile error, Exists still holds, and ForOne still hands the
prior compiled policy to its callback. -/
theorem upsert_failure_leaves_registry_unchanged_witness :
    UpsertPolicy priorSet badPolicy =
      (priorSet, some "unknown field name: Bogus Field") ∧
    ExistsPolicy (UpsertPolicy priorSet badPolicy).1 "px" = true ∧
    ForOne (UpsertPolicy priorSet badPolicy).1 "px"
      (fun (n : Nat) _ => (n + 1, none)) 0 = (1, none) := by
  have h := upsert_failure_leaves_registry_unchanged priorSet badPolicy
    "unknown field name: Bogus Field" rfl
  refine ⟨h.1, ?_, ?_⟩
  · rw [h.2.1 "px"]; rfl
  · exact h.2.2.2.2.2 (fun (n : Nat) _ => (n + 1, none)) 0 priorCompiled rfl

/-- The errors produced by invoking `f` on each entry in turn, threading the
callback state through every invocation (an erring invocation does not stop
the recursion). Independent recursive specification of the error list that
`ForEach`'s single pass collects. -/
def forEachErrors {σ : Type} (f : σ → CompiledPolicy → σ × Option String) :
    σ → List (String × CompiledPolicy) → List String
  | _, [] => []
  | st, kv :: rest =>
      match f st kv.2 with
      | (st', none) => forEachErrors f st' rest
      | (st', some e) => e :: forEachErrors f st' rest

/-- The fold of `ForEach`'s pass, related to the state-only fold over all
entries and to `forEachErrors`. -/
theorem forEach_foldl_spec {σ : Type}
    (f : σ → CompiledPolicy → σ × Option String) :
    ∀ (l : List (String × CompiledPolicy)) (st : σ) (acc : List String),
      l.foldl (fun (a : σ × List String) kv =>
          match f a.1 kv.2 with
          | (st', none) => (st', a.2)
          | (st', some e) => (st', a.2 ++ [e])) (st, acc)
        = (l.foldl (fun a kv => (f a kv.2).1) st,
            acc ++ forEachErrors f st l) := by
  intro l
  induction l with
  | nil => intro st acc; simp [forEachErrors]
  | cons kv rest ih =>
      intro st acc
      simp only [List.foldl_cons]
      rcases hf : f st kv.2 with ⟨st', e?⟩
      cases e? with
      | none => simp [hf, ih, forEachErrors]
      | some e => simp [hf, ih, forEachErrors]

/-- C4: ForEach invokes its callback once per registered entry even when
some invocations fail — the final callback state is the state-fold of `f`
over every entry — and returns the aggregate of every individual error
(nil when no invocation failed). -/
theorem forEach_aggregates_errors_and_visits_all {σ : Type}
    (s : SetImpl) (f : σ → CompiledPolicy → σ × Option String) (st : σ) :
    (ForEach s f st).1 =
      s.policyIDToCompiled.foldl (fun a kv => (f a kv.2).1) st ∧
    (ForEach s f st).2 =
      errorListToError (forEachErrors f st s.policyIDToCompiled) := by
  unfold ForEach
  rw [forEach_foldl_spec f s.policyIDToCompiled st []]
  exact ⟨rfl, rfl⟩

/-- Four registered policies for the P6 instance. -/
def fourPolicySet : SetImpl :=
  ⟨[("p1", ⟨⟨"p1", "policy 1", [], []⟩, []⟩),
    ("p2", ⟨⟨"p2", "policy 2", [], []⟩, []⟩),
    ("p3", ⟨⟨"p3", "policy 3", [], []⟩, []⟩),
    ("p4", ⟨⟨"p4", "policy 4", [], []⟩, []⟩)]⟩

/-- A callback logging each visited policy ID and failing on "p2". -/
def failOnP2 (st : List String) (c : CompiledPolicy) :
    List String × Option String :=
  (st ++ [c.policy.id],
    if c.policy.id = "p2" then some "p2 evaluation failed" else none)

example :
    ForEach fourPolicySet failOnP2 [] =
      (["p1", "p2", "p3", "p4"], some ["p2 evaluation failed"]) := by rfl

example :
    ForEach fourPolicySet (fun (st : List String) c => (st ++ [c.policy.id], none)) [] =
      (["p1", "p2", "p3", "p4"], none) := by rfl

/-- After deleting a key, looking it up finds nothing. -/
theorem rmapGet_delete_self (m : List (String × CompiledPolicy)) (k : String) :
    rmapGet (rmapDelete m k) k = none := by
  unfold rmapGet rmapDelete
  rw [List.find?_eq_none.mpr]
  · rfl
  · intro kv hkv
    have hne := (List.mem_filter.mp hkv).2
    simpa using hne

/-- Deleting an absent key is the identity. -/
theorem rmapDelete_absent (m : List (String × CompiledPolicy)) (k : String)
    (h : rmapGet m k = none) : rmapDelete m k = m := by
  unfold rmapGet at h
  have hfind : m.find? (fun kv => kv.1 = k) = none := by
    cases hf : m.find? (fun kv => kv.1 = k) with
    | none => rfl
    | some kv => rw [hf] at h; simp at h
  unfold rmapDelete
  rw [List.filter_eq_self.mpr]
  intro kv hkv
  have := List.find?_eq_none.mp hfind kv hkv
  simpa using this

/-- C8: after RemovePolicy(id), Exists(id) is false and ForOne(id, f)
returns the not-found error with the callback state untouched (f is never
invoked); RemovePolicy on an absent id is a no-op; and ForOne on a present
id invokes f exactly once with the registered compiled policy, returning
exactly f's result. -/
theorem remove_then_observe_and_forOne
    (s : SetImpl) (id : String) :
    ExistsPolicy (RemovePolicy s id) id = false ∧
    (∀ {σ : Type} (f : σ → CompiledPolicy → σ × Option String) (st : σ),
      ForOne (RemovePolicy s id) id f st =
        (st, some ("policy with ID not found in set: " ++ id))) ∧
    (ExistsPolicy s id = false → RemovePolicy s id = s) ∧
    (∀ {σ : Type} (f : σ → CompiledPolicy → σ × Option String) (st : σ)
      (c : CompiledPolicy),
      rmapGet s.policyIDToCompiled id = some c → ForOne s id f st = f st c) := by
  refine ⟨?_, ?_, ?_, ?_⟩
  · unfold ExistsPolicy RemovePolicy
    rw [rmapGet_delete_self]
    rfl
  · intro σ f st
    unfold ForOne RemovePolicy
    rw [rmapGet_delete_self]
  · intro h
    unfold ExistsPolicy at h
    unfold RemovePolicy
    rw [rmapDelete_absent]
    cases hg : rmapGet s.policyIDToCompiled id with
    | none => rfl
    | some c => rw [hg] at h; simp at h
  · intro σ f st c hget
    unfold ForOne
    rw [hget]

/-- Witness for C8 on a concrete registry holding "p1": removal makes "p1"
unobservable and ForOne not-found; removing the absent "p9" is a no-op; and
ForOne on the present "p1" returns exactly the callback's result computed
from the registered compiled policy. -/
theorem remove_then_observe_and_forOne_witness :
    ExistsPolicy (RemovePolicy priorSet "px") "px" = false ∧
    ForOne (RemovePolicy priorSet "px") "px"
      (fun (n : Nat) _ => (n + 7, none)) 0 =
      (0, some "policy with ID not found in set: px") ∧
    RemovePolicy priorSet "p9" = priorSet ∧
    ForOne priorSet "px" (fun (n : Nat) c => (n, some c.policy.name)) 5 =
      (5, some "prior policy") := by
  have h := remove_then_observe_and_forOne priorSet "px"
  have h9 := remove_then_observe_and_forOne priorSet "p9"
  refine ⟨h.1, ?_, ?_, ?_⟩
  · exact h.2.1 (fun (n : Nat) _ => (n + 7, none)) 0
  · exact h9.2.2.1 (by rfl)
  · exact h.2.2.2 (fun (n : Nat) c => (n, some c.policy.name)) 5 priorCompiled rfl

/-- C7: compilation clones the input policy and never retains the caller's
pointer: the caller's cell is not mutated by a successful compile; the
compiled policy's cell is a fresh address holding a copy of the input; and
mutating the caller's cell afterwards leaves the compiled policy's cell
unchanged. Stated on the heap model of `CompilePolicyWithProviders` (and
`CompilePolicy`, which shares its clone-then-compile body). -/
theorem compile_defensive_clone
    (h : PolicyHeap) (a : Nat) (h₁ : PolicyHeap) (cp : CompiledPolicyH)
    (ha : a < h.cells.length)
    (hc : CompilePolicyWithProvidersHeap h a = (h₁, .ok cp)) :
    heapGet h₁ a = heapGet h a ∧
    cp.policyAddr ≠ a ∧
    heapGet h₁ cp.policyAddr = heapGet h a ∧
    (∀ p', heapGet (heapSet h₁ a p') cp.policyAddr =
      heapGet h₁ cp.policyAddr) := by
  unfold CompilePolicyWithProvidersHeap CompilePolicyHeap cloneVT heapAlloc at hc
  rw [Prod.mk.injEq] at hc
  obtain ⟨hh, he⟩ := hc
  rcases hcs : compileSections
      ((heapGet ⟨h.cells ++ [(heapGet h a).getD default]⟩
        h.cells.length).getD default) with e | secs <;>
    rw [hcs] at he <;> simp only [Except.map] at he
  · exact absurd he (by simp)
  have hcp : cp = ⟨h.cells.length, secs⟩ := by
    cases he
    rfl
  obtain ⟨p, hp⟩ : ∃ p, h.cells[a]? = some p := by
    cases hg : h.cells[a]? with
    | none =>
        rw [List.getElem?_eq_none_iff] at hg
        omega
    | some p => exact ⟨p, rfl⟩
  subst hh
  refine ⟨?_, ?_, ?_, ?_⟩
  · unfold heapGet
    exact List.getElem?_append_left ha
  · rw [hcp]
    show h.cells.length ≠ a
    omega
  · unfold heapGet
    rw [hcp]
    simp only
    rw [List.getElem?_concat_length, hp]
    rfl
  · intro p'
    unfold heapGet heapSet
    rw [hcp]
    simp only
    rw [List.getElem?_set_ne]
    omega

/-- A heap holding one compileable policy at address 0. -/
def witnessHeap : PolicyHeap :=
  ⟨[nodeFileAccessPolicyForPathType actualPathFieldName ["/etc/passwd"]]⟩

/-- The compiled policy produced from the witness heap. -/
def witnessCompiledH : CompiledPolicyH :=
  (CompilePolicyWithProvidersHeap witnessHeap 0).2.toOption.getD ⟨0, []⟩

/-- Witness for C7: compiling the policy at address 0 leaves that cell
unchanged, stores the clone at a different address, and a subsequent
mutation of address 0 does not change the compiled policy's cell. -/
theorem compile_defensive_clone_witness :
    heapGet (CompilePolicyWithProvidersHeap witnessHeap 0).1 0 =
      heapGet witnessHeap 0 ∧
    witnessCompiledH.policyAddr ≠ 0 ∧
    heapGet (heapSet (CompilePolicyWithProvidersHeap witnessHeap 0).1 0 default)
      witnessCompiledH.policyAddr =
      heapGet (CompilePolicyWithProvidersHeap witnessHeap 0).1
        witnessCompiledH.policyAddr := by
  have h := compile_defensive_clone witnessHeap 0
    (CompilePolicyWithProvidersHeap witnessHeap 0).1 witnessCompiledH
    (by decide) rfl
  exact ⟨h.1, h.2.1, h.2.2.2 default⟩

/-- C5: every Run call admitted past the semaphore releases its slot
exactly once before returning, on every exit path (fetch error, absent
deployment, normal completion): the holding gauge returns to its pre-call
value, the trace holds exactly one acquire and one release, and the slot is
acquired strictly before the deployment is fetched from the datastore
(the trace starts with the acquire followed by the fetch). -/
theorem run_releases_slot_on_every_path
    (m : PipelineMetrics) (acq : AcquireOutcome) (fetch : FetchOutcome)
    (flatten : Bool) (hacq : acq = .ok) :
    (Run m acq fetch flatten).metrics.holdingSize = m.holdingSize ∧
    (Run m acq fetch flatten).trace.count .acquireSlot = 1 ∧
    (Run m acq fetch flatten).trace.count .releaseSlot = 1 ∧
    (Run m acq fetch flatten).trace.take 2 =
      [PipelineAction.acquireSlot, PipelineAction.getDeployment] := by
  subst hacq
  rcases fetch with e | _ | d <;> cases flatten <;>
    refine ⟨?_, by rfl, by rfl, by rfl⟩ <;>
    simp [Run, acquireRiskSemaphore, releaseRiskSemaphore]

/-- Witness for C5: a concrete admitted Run (deployment found, flattening
on) starting from zeroed metrics. -/
theorem run_releases_slot_on_every_path_witness :
    (Run ⟨0, 0, 0⟩ .ok (.found "dep-1") true).metrics.holdingSize = 0 ∧
    (Run ⟨0, 0, 0⟩ .ok (.found "dep-1") true).trace.count .acquireSlot = 1 ∧
    (Run ⟨0, 0, 0⟩ .ok (.found "dep-1") true).trace.count .releaseSlot = 1 ∧
    (Run ⟨0, 0, 0⟩ .ok (.found "dep-1") true).trace.take 2 =
      [PipelineAction.acquireSlot, PipelineAction.getDeployment] := by
  exact run_releases_slot_on_every_path ⟨0, 0, 0⟩ .ok (.found "dep-1") true rfl

/-- C6: a Run whose semaphore wait times out returns a non-nil error, never
fetches or evaluates the deployment, and increments the cumulative timeout
counter; a Run abandoned by parent-context cancellation also errors out but
leaves the timeout counter untouched. -/
theorem acquire_timeout_error_and_counter
    (m : PipelineMetrics) (fetch : FetchOutcome) (flatten : Bool) :
    (Run m .timedOut fetch flatten).err.isSome = true ∧
    (Run m .timedOut fetch flatten).trace.count .getDeployment = 0 ∧
    (Run m .timedOut fetch flatten).trace.count .reprocessRisk = 0 ∧
    (Run m .timedOut fetch flatten).metrics.timeouts = m.timeouts + 1 ∧
    (Run m .cancelled fetch flatten).err.isSome = true ∧
    (Run m .cancelled fetch flatten).metrics.timeouts = m.timeouts := by
  exact ⟨rfl, rfl, rfl, rfl, rfl, rfl⟩

/-- C10: an admitted Run for a deployment the datastore reports as absent
(exists=false, nil error) returns nil and performs no risk reprocessing —
the missing deployment is silently skipped. -/
theorem missing_deployment_silently_skipped
    (m : PipelineMetrics) (flatten : Bool) :
    (Run m .ok .absent flatten).err = none ∧
    (Run m .ok .absent flatten).trace.count .reprocessRisk = 0 ∧
    (Run m .ok .absent flatten).trace.count .getDeployment = 1 := by
  exact ⟨rfl, rfl, rfl⟩

/-- Witness for C4 at the P6 instance: four policies, the callback failing
on "p2"; it is still invoked on "p1", "p3" and "p4" (the visited-ID log
lists all four) and the aggregate holds exactly p2's error. -/
theorem forEach_aggregates_errors_and_visits_all_witness :
    ForEach fourPolicySet failOnP2 [] =
      (["p1", "p2", "p3", "p4"], some ["p2 evaluation failed"]) := by
  have h := forEach_aggregates_errors_and_visits_all fourPolicySet failOnP2 []
  rw [show ForEach fourPolicySet failOnP2 [] =
    ((ForEach fourPolicySet failOnP2 []).1,
      (ForEach fourPolicySet failOnP2 []).2) from rfl, h.1, h.2]
  rfl

/-- Witness for C6 at zeroed metrics: the timed-out Run errors and bumps
the timeout counter to 1; the cancelled Run errors without bumping it. -/
theorem acquire_timeout_error_and_counter_witness :
    (Run ⟨0, 0, 0⟩ .timedOut (.found "dep-1") false).err.isSome = true ∧
    (Run ⟨0, 0, 0⟩ .timedOut (.found "dep-1") false).metrics.timeouts = 1 ∧
    (Run ⟨0, 0, 0⟩ .cancelled (.found "dep-1") false).err.isSome = true ∧
    (Run ⟨0, 0, 0⟩ .cancelled (.found "dep-1") false).metrics.timeouts = 0 := by
  have h := acquire_timeout_error_and_counter ⟨0, 0, 0⟩ (.found "dep-1") false
  exact ⟨h.1, h.2.2.2.1, h.2.2.2.2.1, h.2.2.2.2.2⟩

/-- Witness for C10: an admitted Run for an absent deployment returns nil
and performs no risk reprocessing. -/
theorem missing_deployment_silently_skipped_witness :
    (Run ⟨3, 1, 2⟩ .ok .absent true).err = none ∧
    (Run ⟨3, 1, 2⟩ .ok .absent true).trace.count .reprocessRisk = 0 := by
  have h := missing_deployment_silently_skipped ⟨3, 1, 2⟩ true
  exact ⟨h.1, h.2.1⟩
